import Mathlib

/-!
Verification of the content publishing pipeline of the `0xghost` blog repository.

The repository derives three artifacts from a schema-validated collection of
blog records: an Atom feed (`announcements.atom`), a plain-text machine index
(`llms.txt`), and a per-record OG-image render manifest (`astro-og-canvas`
route configuration).

JavaScript strings are sequences of UTF-16 code units; we embed them as
`List Nat` (each element a code unit).  Literal strings from the source are
written with the helper `str`, which converts an ASCII Lean string literal to
its code-unit list.  `Date` values are embedded as their `valueOf`:
milliseconds since the Unix epoch, as `Int`.
-/

open List

/-- Code-unit list of an ASCII string literal (all source literals are ASCII,
so `Char.toNat` agrees with the UTF-16 code units). -/
def str (s : String) : List Nat :=
  s.data.map Char.toNat

/-- Structural worker for `decDigits`: the first argument is fuel, always
sufficient when it exceeds the number of digits (division by ten strictly
decreases the value). -/
def decDigitsAux : Nat → Nat → List Nat
  | 0, _ => []
  | fuel + 1, n => if n < 10 then [48 + n] else decDigitsAux fuel (n / 10) ++ [48 + n % 10]

/-- Decimal numeral of a natural number, most significant digit first, as code
units.  Models JavaScript number-to-string conversion for non-negative
integers (template-literal interpolation such as `&#${n};`). -/
def decDigits (n : Nat) : List Nat :=
  decDigitsAux (n + 1) n

/-- Is the code unit an ASCII decimal digit? -/
def isDigitCU (c : Nat) : Bool :=
  decide (48 ≤ c) && decide (c ≤ 57)

/-- One step of `escapeXml` (src/unnamed/part_001, lines 49-61): the action of
`unsafe.replace(/[<>&'"]|[\u0080-￿]/g, ...)` on a single UTF-16 code
unit.  The five XML-significant characters become named entities; code units
in the range `\u0080`-`￿` become `&#<code>;`; all other code units are
left unchanged (the regex, which operates per code unit, does not match
them). -/
def escapeUnit (c : Nat) : List Nat :=
  if c = 60 then str "&lt;"
  else if c = 62 then str "&gt;"
  else if c = 38 then str "&amp;"
  else if c = 39 then str "&apos;"
  else if c = 34 then str "&quot;"
  else if 128 ≤ c ∧ c ≤ 65535 then str "&#" ++ decDigits c ++ str ";"
  else [c]

/-- `escapeXml` from src/unnamed/part_001: a global regex replace is the
concatenation of the per-match replacements and the untouched stretches,
i.e. the flat-map of `escapeUnit` over the code units.  (The early return
`if (!unsafe) return ''` yields the empty string on empty input, which
coincides with the flat-map.) -/
def escapeXml (s : List Nat) : List Nat :=
  s.flatMap escapeUnit

/-- The five XML-significant code units `<ugt;&'"` handled by `escapeXml`:
`<` `>` `&` `'` `"`. -/
def fiveXml : List Nat := [60, 62, 38, 39, 34]

/-- The language `(safe-char | entity)*` over code units: the output of a
correct escaper must decompose into safe literal characters and complete
entities.  `Chunks safe l` holds iff `l` is such a decomposition where every
literal character satisfies `safe`.  The entity constructors spell the code
units of `&lt;` `&gt;` `&amp;` `&apos;` `&quot;` and of a numeric character
reference `&#<decimal>;`. -/
inductive Chunks (safe : Nat → Bool) : List Nat → Prop
  | nil : Chunks safe []
  | safeChar {c : Nat} {r : List Nat} :
      safe c = true → Chunks safe r → Chunks safe (c :: r)
  | entLt {r : List Nat} :
      Chunks safe r → Chunks safe (38 :: 108 :: 116 :: 59 :: r)
  | entGt {r : List Nat} :
      Chunks safe r → Chunks safe (38 :: 103 :: 116 :: 59 :: r)
  | entAmp {r : List Nat} :
      Chunks safe r → Chunks safe (38 :: 97 :: 109 :: 112 :: 59 :: r)
  | entApos {r : List Nat} :
      Chunks safe r → Chunks safe (38 :: 97 :: 112 :: 111 :: 115 :: 59 :: r)
  | entQuot {r : List Nat} :
      Chunks safe r → Chunks safe (38 :: 113 :: 117 :: 111 :: 116 :: 59 :: r)
  | entNum {n : Nat} {r : List Nat} :
      Chunks safe r → Chunks safe (38 :: 35 :: (decDigits n ++ 59 :: r))

/-- Safe literal characters according to the claim: printable Basic Latin
(U+0020 to U+007E) and not one of the five XML-significant characters. -/
def claimSafe (c : Nat) : Bool :=
  decide (32 ≤ c) && decide (c ≤ 126) && !(fiveXml.contains c)

/-- Safe literal characters according to the code: any code unit below
U+0080 that is not one of the five XML-significant characters (the regex
only matches `[<>&'"]` and `[\u0080-￿]`, so controls such as U+0007,
U+000A or U+007F pass through literally). -/
def codeSafe (c : Nat) : Bool :=
  decide (c < 128) && !(fiveXml.contains c)

/-- A content record as validated by the collection schema
(src/src/content.config.ts): `title`, `description` strings, `pubDate` a
date, `tags` a string array — all required.  `id` is the loader-assigned
unique entry identifier.  `pubDate` is embedded as `Date.prototype.valueOf`
(milliseconds since the epoch). -/
structure Post where
  id : List Nat
  title : List Nat
  description : List Nat
  pubDate : Int
  tags : List (List Nat)
deriving DecidableEq

/-- The sort comparator relation: `a` may precede `b` exactly when the
comparator `(a, b) => b.data.pubDate.valueOf() - a.data.pubDate.valueOf()`
returns a value `≤ 0`, i.e. `b.pubDate ≤ a.pubDate`. -/
def byDateDesc (a b : Post) : Prop :=
  b.pubDate ≤ a.pubDate

instance : DecidableRel byDateDesc :=
  fun a b => inferInstanceAs (Decidable (b.pubDate ≤ a.pubDate))

instance : IsTotal Post byDateDesc :=
  ⟨fun a b => Int.le_total b.pubDate a.pubDate⟩

instance : IsTrans Post byDateDesc :=
  ⟨fun _ _ _ hab hbc => le_trans hbc hab⟩

/-- `posts.sort((a, b) => b.data.pubDate.valueOf() - a.data.pubDate.valueOf())`
(src/unnamed/part_001 and part_002, lines 7-9).  `Array.prototype.sort` is
required to be stable (ECMAScript 2019 and later), and for a consistent
comparator every stable sort produces the same output list, so we embed it
as insertion sort by the "comparator result is non-positive" relation. -/
def sortedPosts (posts : List Post) : List Post :=
  List.insertionSort byDateDesc posts

/-- Left-pad a numeral with zero digits (code unit 48) to width `k`. -/
def padZ (k : Nat) (ds : List Nat) : List Nat :=
  List.replicate (k - ds.length) 48 ++ ds

/-- Convert a day number (days since 1970-01-01) to a proleptic Gregorian
civil date `(year, month, day)`.  Model of the calendar computation inside
ECMA-262 `Date.prototype.toISOString` (platform behavior used by the source;
standard era-based algorithm). -/
def civilFromDays (days : Int) : Int × Nat × Nat :=
  let z := days + 719468
  let era := z.fdiv 146097
  let doe := (z - era * 146097).toNat
  let yoe := (doe - doe / 1460 + doe / 36524 - doe / 146096) / 365
  let y := (yoe : Int) + era * 400
  let doy := doe - (365 * yoe + yoe / 4 - yoe / 100)
  let mp := (5 * doy + 2) / 153
  let d := doy - (153 * mp + 2) / 5 + 1
  let m := if mp < 10 then mp + 3 else mp - 9
  (if m ≤ 2 then y + 1 else y, m, d)

/-- The year field of the ISO string: four zero-padded digits for years 0
to 9999, otherwise the ECMA-262 expanded-year form (sign and six digits). -/
def yearStr (y : Int) : List Nat :=
  if 0 ≤ y ∧ y ≤ 9999 then padZ 4 (decDigits y.toNat)
  else (if y < 0 then [45] else [43]) ++ padZ 6 (decDigits y.natAbs)

/-- The `YYYY-MM-DD` date part of the ISO string of a given day number. -/
def dateStr (days : Int) : List Nat :=
  yearStr (civilFromDays days).1 ++ [45] ++ padZ 2 (decDigits (civilFromDays days).2.1)
    ++ [45] ++ padZ 2 (decDigits (civilFromDays days).2.2)

/-- The `HH:mm:ss.mmm` time part of the ISO string from the milliseconds
elapsed within the day. -/
def timeStr (ms : Nat) : List Nat :=
  padZ 2 (decDigits (ms / 3600000)) ++ [58] ++ padZ 2 (decDigits (ms / 60000 % 60))
    ++ [58] ++ padZ 2 (decDigits (ms / 1000 % 60)) ++ [46] ++ padZ 3 (decDigits (ms % 1000))

/-- Model of ECMA-262 `Date.prototype.toISOString` on a millisecond epoch
value: date part, `T` (code unit 84), time part, `Z` (code unit 90), all in
UTC. -/
def toISOString (ms : Int) : List Nat :=
  dateStr (ms.fdiv 86400000) ++ [84] ++ timeStr (ms.fmod 86400000).toNat ++ [90]

/-- Model of `s.split('T')[0]`: the prefix of `s` before the first `T`
(code unit 84); the whole string when `T` does not occur. -/
def jsSplitT0 (s : List Nat) : List Nat :=
  s.takeWhile (fun c => !(c == 84))

/-- `const lastUpdated = sortedPosts[0]?.data.pubDate || new Date()`
(src/unnamed/part_001, line 12).  A `Date` object is always truthy, so the
`||` falls back to the current time exactly when the sorted collection is
empty.  `now` is the current time at synthesis. -/
def lastUpdated (now : Int) (posts : List Post) : Int :=
  match sortedPosts posts with
  | [] => now
  | p :: _ => p.pubDate

/-- The canonical per-record URL the feed builds for an entry:
`https://0xghost.dev/blog/${post.id}/` (src/unnamed/part_001, lines 33-34). -/
def feedEntryUrl (p : Post) : List Nat :=
  str "https://0xghost.dev/blog/" ++ p.id ++ str "/"

/-- One `<entry>` block of the feed (src/unnamed/part_001, lines 30-39):
the template inside `sortedPosts.map`, starting with the newline that
follows the opening backtick. -/
def entryXml (p : Post) : List Nat :=
  str "\n  <entry>\n    <title>" ++ escapeXml p.title
    ++ str "</title>\n    <link href=\"" ++ feedEntryUrl p
    ++ str "\"/>\n    <id>" ++ feedEntryUrl p
    ++ str "</id>\n    <updated>" ++ toISOString p.pubDate
    ++ str "</updated>\n    <summary>" ++ escapeXml p.description
    ++ str "</summary>\n    <content type=\"html\">" ++ escapeXml p.description
    ++ str "</content>\n    <media:thumbnail url=\"https://0xghost.dev/og/" ++ p.id
    ++ str ".png\"/>\n  </entry>"

/-- The literal head of the feed template, up to and including the opening
`<updated>` tag of the document-level timestamp. -/
def feedHeadXml : List Nat :=
  str "<?xml version=\"1.0\" encoding=\"utf-8\"?>\n<feed xmlns=\"http://www.w3.org/2005/Atom\" xmlns:media=\"http://search.yahoo.com/mrss/\">\n  <title>0xGhost Announcements</title>\n  <subtitle>New blog posts on C++, systems programming, and performance optimization</subtitle>\n  <logo>https://0xghost.dev/favicon.png</logo>\n  \n  <link href=\"https://0xghost.dev/announcements.atom\" rel=\"self\"/>\n  <link href=\"https://0xghost.dev/\"/>\n  \n  <id>https://0xghost.dev/</id>\n  <updated>"

/-- The literal author block between `</updated>` and the entries
interpolation. -/
def feedAuthorXml : List Nat :=
  str "\n  \n  <author>\n    <name>0xGhost</name>\n    <uri>https://0xghost.dev</uri>\n  </author>\n  "

/-- The literal segment of the feed template following the document-level
timestamp: closing tag plus author block. -/
def feedAfterUpdated : List Nat :=
  str "</updated>" ++ feedAuthorXml

/-- The full Atom document built by `GET` in src/unnamed/part_001, lines
14-40: literal segments of the template interleaved with the interpolated
timestamp and the `join('\n')` of the per-record entry blocks. -/
def feed (now : Int) (posts : List Post) : List Nat :=
  feedHeadXml ++ toISOString (lastUpdated now posts) ++ feedAfterUpdated
    ++ List.intercalate (str "\n") ((sortedPosts posts).map entryXml) ++ str "\n</feed>"

/-- `const baseUrl = 'https://0xghost.dev'` (src/unnamed/part_002, line 11). -/
def baseUrl : List Nat :=
  str "https://0xghost.dev"

/-- JavaScript nullish coalescing `a ?? b`: the left operand when it is
neither `null` nor `undefined` (embedded as `some`), otherwise the right. -/
def jsNullish (a : Option (List Nat)) (b : List Nat) : List Nat :=
  match a with
  | some s => s
  | none => b

/-- Template-literal stringification of a possibly-undefined value:
`undefined` interpolates as the string "undefined". -/
def jsTemplate (a : Option (List Nat)) : List Nat :=
  match a with
  | some s => s
  | none => str "undefined"

/-- The `slug` property read by src/unnamed/part_002, line 36.  The blog
collection is loaded with the Astro 5 `glob` loader
(src/src/content.config.ts), whose entries carry `id` but no `slug`
property, so the JavaScript property access always yields `undefined`. -/
def Post.slug (_ : Post) : Option (List Nat) :=
  none

/-- `const tags = post.data.tags?.join(', ') ?? 'none'` (src/unnamed/part_002,
line 38).  The schema requires `tags` (a string array), so the optional
chaining always proceeds and the left operand of `??` is always defined:
the joined list — which is the empty string for an empty array. -/
def tagsToken (p : Post) : List Nat :=
  jsNullish (some (List.intercalate (str ", ") p.tags)) (str "none")

/-- `const description = post.data.description ?? 'No description provided.'`
(src/unnamed/part_002, line 39).  The schema requires `description` (a
string), so the left operand of `??` is always defined — even when it is the
empty string. -/
def descToken (p : Post) : List Nat :=
  jsNullish (some p.description) (str "No description provided.")

/-- `const url = `...`/blog/${post.slug}/`` (src/unnamed/part_002, line 36):
the per-record URL line of the index. -/
def indexPostUrl (p : Post) : List Nat :=
  baseUrl ++ str "/blog/" ++ jsTemplate p.slug ++ str "/"

/-- One per-record block of the index (src/unnamed/part_002, lines 41-46):
title heading, URL, publish date (`toISOString().split('T')[0]`), tags and
description lines, ending with a newline. -/
def postBlock (p : Post) : List Nat :=
  str "### " ++ p.title ++ str "\n- URL: " ++ indexPostUrl p
    ++ str "\n- Published: " ++ jsSplitT0 (toISOString p.pubDate)
    ++ str "\n- Tags: " ++ tagsToken p
    ++ str "\n- Description: " ++ descToken p ++ str "\n"

/-- `sortedPosts.flatMap(p => p.data.tags)` (src/unnamed/part_002, line 51). -/
def allTags (posts : List Post) : List (List Nat) :=
  (sortedPosts posts).flatMap Post.tags

/-- `Array.from(new Set(l))`: deduplication keeping the first occurrence of
each element, in insertion order. -/
def jsSetDedup {α : Type} [DecidableEq α] : List α → List α
  | [] => []
  | x :: xs => x :: (jsSetDedup xs).filter (fun y => y ≠ x)

/-- `Array.from(new Set(sortedPosts.flatMap(p => p.data.tags))).sort()`
(src/unnamed/part_002, lines 51-52).  The default `sort()` comparator
compares strings by UTF-16 code units, which is the lexicographic order on
`List Nat`. -/
def tagIndex (posts : List Post) : List (List Nat) :=
  List.insertionSort (· ≤ ·) (jsSetDedup (allTags posts))

/-- One line of the tag directory: `- ${tag}: ${baseUrl}/tags/${tag}/`
(src/unnamed/part_002, line 53). -/
def tagLine (t : List Nat) : List Nat :=
  str "- " ++ t ++ str ": " ++ baseUrl ++ str "/tags/" ++ t ++ str "/"

/-- The joined tag directory of the index (src/unnamed/part_002, lines
51-54). -/
def tagsSection (posts : List Post) : List Nat :=
  List.intercalate (str "\n") ((tagIndex posts).map tagLine)

/-- Literal head of the index template (src/unnamed/part_002, lines 13-33),
up to the post-count interpolation, with `baseUrl` interpolated where the
template interpolates it. -/
def indexHead : List Nat :=
  str "# 0xGhost - Systems Programming & C++ Blog\n\n> A deep dive into C++, systems programming, performance optimization, and low-level computing\n\n## Site Information\n\n- **Name**: 0xGhost\n- **Author**: 0xGhost\n- **URL**: "
    ++ baseUrl
    ++ str "\n- **Topics**: C++, Systems Programming, Performance Optimization, Move Semantics, Template Metaprogramming\n- **Language**: English\n\n## Main Pages\n\n- Home: "
    ++ baseUrl ++ str "/\n- Blog: " ++ baseUrl ++ str "/blog/\n- Projects: "
    ++ baseUrl ++ str "/projects/\n- About: " ++ baseUrl ++ str "/about/\n- Privacy Policy: "
    ++ baseUrl ++ str "/privacy/\n\n## Blog Posts ("

/-- Literal between the post count and the per-record blocks. -/
def indexMid1 : List Nat := str " total)\n\n"

/-- Literal between the per-record blocks and the tag directory (note the
stray space after the interpolation in the source, line 47). -/
def indexMid2 : List Nat := str " \n\n## Tags\n\n"

/-- Literal between the tag directory and the generation timestamp
(src/unnamed/part_002, lines 54-80). -/
def indexMid3 : List Nat :=
  str "\n\n## Additional Resources\n\n- RSS/Atom Feed: "
    ++ baseUrl
    ++ str "/announcements.atom\n- GitHub Discussions: https://github.com/ttheghost/0xghost/discussions/categories/announcements\n\n## Content Guidelines\n\nThis blog focuses on:\n- Deep technical dives into C++ language features\n- Performance optimization techniques\n- Move semantics and value categories\n- Template metaprogramming\n- Systems-level programming concepts\n- Real-world code examples with benchmarks\n\nAll code examples are tested and production-ready. Articles include detailed explanations, \nperformance benchmarks, and references to C++ standards.\n\n## Contact & Social\n\n- GitHub: https://github.com/ttheghost/0xghost\n- Website: "
    ++ baseUrl ++ str "\n\n---\nLast updated: "

/-- Literal tail of the index after the generation timestamp. -/
def indexTail : List Nat := str "\nGenerated automatically from blog content\n"

/-- The full `llms.txt` document built by `GET` in src/unnamed/part_002,
lines 13-82.  The generation timestamp is
`new Date().toISOString().split('T')[0]` — the calendar-day part of the
current time `now`. -/
def llmsTxt (now : Int) (posts : List Post) : List Nat :=
  indexHead ++ decDigits (sortedPosts posts).length ++ indexMid1
    ++ List.intercalate (str "\n") ((sortedPosts posts).map postBlock) ++ indexMid2
    ++ tagsSection posts ++ indexMid3 ++ jsSplitT0 (toISOString now) ++ indexTail

/-- One font block of the OG-image options (src/unnamed/part_000, lines
37-50).  `lineHeight: 1.4` is the exact decimal constant `7/5`; fields the
source omits for one of the two fonts are `none`. -/
structure FontTheme where
  size : Nat
  families : List (List Nat)
  weight : Option (List Nat)
  color : List Nat
  lineHeight : Option ℚ
deriving DecidableEq

/-- The render-options object returned by `getImageOptions`
(src/unnamed/part_000, lines 30-55). -/
structure OGImageOptions where
  title : List Nat
  description : List Nat
  bgGradient : List (List Nat)
  borderColor : List Nat
  borderWidth : Nat
  padding : Nat
  fontTitle : FontTheme
  fontDescription : FontTheme
  logoPath : List Nat
  logoSize : List Nat
deriving DecidableEq

/-- `getSlug: (_path, page) => _path + '.png'` (src/unnamed/part_000, line
28); `_path` is the key of the `pages` object, i.e. the record id.  The
`page` argument is unused by the source. -/
def getSlug (path : List Nat) : List Nat :=
  path ++ str ".png"

/-- `getImageOptions` (src/unnamed/part_000, lines 30-55): title and
description come from the record; every other field is a configuration
constant. -/
def getImageOptions (p : Post) : OGImageOptions where
  title := p.title
  description := p.description
  bgGradient := [[9, 9, 11]]
  borderColor := [74, 222, 128]
  borderWidth := 20
  padding := 60
  fontTitle :=
    { size := 80
      families := [str "JetBrains Mono"]
      weight := some (str "Bold")
      color := [255, 255, 255]
      lineHeight := none }
  fontDescription :=
    { size := 40
      families := [str "JetBrains Mono"]
      weight := none
      color := [161, 161, 170]
      lineHeight := some (7 / 5) }
  logoPath := str "./public/favicon.svg"
  logoSize := [100]

/-- Insert a key-value pair into an object in JavaScript property order:
overwrite in place when the key exists, append otherwise. -/
def upsert (k : List Nat) (v : Post) : List (List Nat × Post) → List (List Nat × Post)
  | [] => [(k, v)]
  | (k', v') :: rest => if k = k' then (k', v) :: rest else (k', v') :: upsert k v rest

/-- `Object.fromEntries`: fold the entry list into an object, later values
overwriting earlier ones at the first occurrence position of the key. -/
def fromEntries (l : List (List Nat × Post)) : List (List Nat × Post) :=
  l.foldl (fun acc kv => upsert kv.1 kv.2 acc) []

/-- `const pages = Object.fromEntries(entries.map((post) => [post.id,
post.data]))` (src/unnamed/part_000, line 22).  Our `Post` carries its `id`
alongside the schema data, so the value is the whole record. -/
def pages (posts : List Post) : List (List Nat × Post) :=
  fromEntries (posts.map fun p => (p.id, p))

/-- The image-generation manifest: one render request per entry of `pages`,
at the target filename `getSlug(path)` with options `getImageOptions(page)`.
Modelled from the spec: the `OGImageRoute` machinery of `astro-og-canvas`
(an external collaborator, not in this repository) enumerates exactly one
request per page of the `pages` object. -/
def ogManifest (posts : List Post) : List (List Nat × OGImageOptions) :=
  (pages posts).map (fun kv => (getSlug kv.1, getImageOptions kv.2))

/-- A concrete record mirroring the repository article
`src/src/content/blog/std-move-deep-dive.md` (only the fields relevant to
URL construction are taken from the article; the remaining fields are
arbitrary concrete values). -/
def demoPost : Post where
  id := str "std-move-deep-dive"
  title := str "A deep dive into Value Categories"
  description := str "Ownership transfer mechanics."
  pubDate := 1765238400000
  tags := [str "cpp", str "performance", str "systems"]

/-- A degenerate-but-valid record: empty tag list and empty description. -/
def emptyTagsPost : Post where
  id := str "p"
  title := str "T"
  description := []
  pubDate := 0
  tags := []

/-! ## Helper lemmas -/

theorem decDigits_ne_nil (n : Nat) : decDigits n ≠ [] := by
  rw [decDigits, decDigitsAux]
  split <;> simp

theorem decDigitsAux_digits (fuel : Nat) : ∀ n, ∀ c ∈ decDigitsAux fuel n, 48 ≤ c ∧ c ≤ 57 := by
  induction fuel with
  | zero =>
    intro n c hc
    simp [decDigitsAux] at hc
  | succ fuel ih =>
    intro n c hc
    rw [decDigitsAux] at hc
    split at hc
    · next h =>
      simp only [List.mem_singleton] at hc
      omega
    · next h =>
      rw [List.mem_append] at hc
      rcases hc with hc | hc
      · exact ih (n / 10) c hc
      · simp only [List.mem_singleton] at hc
        omega

theorem decDigits_digits (n : Nat) : ∀ c ∈ decDigits n, 48 ≤ c ∧ c ≤ 57 :=
  decDigitsAux_digits (n + 1) n

theorem takeWhile_append_all {p : Nat → Bool} {a : List Nat}
    (h : ∀ c ∈ a, p c = true) (b : List Nat) :
    (a ++ b).takeWhile p = a ++ b.takeWhile p := by
  induction a with
  | nil => rfl
  | cons x xs ih => simp_all [List.takeWhile_cons]

theorem padZ_digits (k : Nat) (ds : List Nat) (h : ∀ c ∈ ds, 48 ≤ c ∧ c ≤ 57) :
    ∀ c ∈ padZ k ds, 48 ≤ c ∧ c ≤ 57 := by
  intro c hc
  rw [padZ, List.mem_append] at hc
  rcases hc with hc | hc
  · rw [List.eq_of_mem_replicate hc]
    omega
  · exact h c hc

theorem yearStr_digits (y : Int) : ∀ c ∈ yearStr y, 43 ≤ c ∧ c ≤ 57 := by
  intro c hc
  rw [yearStr] at hc
  split at hc
  · have := padZ_digits 4 _ (decDigits_digits y.toNat) c hc
    omega
  · rw [List.mem_append] at hc
    rcases hc with hc | hc
    · split at hc <;> simp only [List.mem_singleton] at hc <;> omega
    · have := padZ_digits 6 _ (decDigits_digits y.natAbs) c hc
      omega

theorem dateStr_no_T (z : Int) : ∀ c ∈ dateStr z, (!(c == 84)) = true := by
  intro c hc
  rw [dateStr] at hc
  simp only [List.append_assoc, List.mem_append, List.mem_singleton] at hc
  have hrange : 43 ≤ c ∧ c ≤ 57 := by
    rcases hc with hc | hc | hc | hc | hc
    · exact yearStr_digits (civilFromDays z).1 c hc
    · omega
    · have := padZ_digits 2 _ (decDigits_digits _) c hc
      omega
    · omega
    · have := padZ_digits 2 _ (decDigits_digits _) c hc
      omega
  simp only [Bool.not_eq_true', beq_eq_false_iff_ne, ne_eq]
  omega

theorem jsSplitT0_toISOString (ms : Int) :
    jsSplitT0 (toISOString ms) = dateStr (ms.fdiv 86400000) := by
  rw [jsSplitT0, toISOString, List.append_assoc, List.append_assoc,
    takeWhile_append_all (dateStr_no_T _)]
  simp [List.takeWhile_cons]

theorem str_lt_eq : str "&lt;" = [38, 108, 116, 59] := by decide

theorem str_gt_eq : str "&gt;" = [38, 103, 116, 59] := by decide

theorem str_amp_eq : str "&amp;" = [38, 97, 109, 112, 59] := by decide

theorem str_apos_eq : str "&apos;" = [38, 97, 112, 111, 115, 59] := by decide

theorem str_quot_eq : str "&quot;" = [38, 113, 117, 111, 116, 59] := by decide

theorem escapeXml_cons (c : Nat) (s : List Nat) :
    escapeXml (c :: s) = escapeUnit c ++ escapeXml s := by
  simp [escapeXml]

/-! ## C1: escaping correctness -/

/-- Claim C1, amended to what the code does: for every input string (any list
of UTF-16 code units), the escaped output decomposes into entities and safe
literal characters, where a safe literal character is any code unit below
U+0080 other than the five XML-significant ones.  In particular no literal
`<`, `>`, `&`, `'` or `"` occurs outside an entity, and every code unit in
the range U+0080 to U+FFFF occurs only as a numeric character reference —
but non-printable code units below U+0080 (controls, U+007F) pass through
literally, contrary to the claim as stated. -/
theorem escapeXml_escapes_outside_entities (s : List Nat) (h : ∀ c ∈ s, c < 65536) :
    Chunks codeSafe (escapeXml s) := by
  induction s with
  | nil => exact Chunks.nil
  | cons c cs ih =>
    have hc : c < 65536 := h c (List.mem_cons_self c cs)
    have ih' := ih fun x hx => h x (List.mem_cons_of_mem c hx)
    rw [escapeXml_cons, escapeUnit]
    split_ifs with h60 h62 h38 h39 h34 hnum
    · rw [str_lt_eq]
      exact Chunks.entLt ih'
    · rw [str_gt_eq]
      exact Chunks.entGt ih'
    · rw [str_amp_eq]
      exact Chunks.entAmp ih'
    · rw [str_apos_eq]
      exact Chunks.entApos ih'
    · rw [str_quot_eq]
      exact Chunks.entQuot ih'
    · have h2 : str "&#" = [38, 35] := by decide
      have h3 : str ";" = [59] := by decide
      rw [h2, h3]
      have hshape : ([38, 35] ++ decDigits c ++ [59]) ++ escapeXml cs
          = 38 :: 35 :: (decDigits c ++ 59 :: escapeXml cs) := by
        simp
      rw [hshape]
      exact Chunks.entNum ih'
    · have h128 : c < 128 := by omega
      have h5 : fiveXml.contains c = false := by
        simp only [fiveXml, List.contains_cons, List.contains_nil, Bool.or_eq_false_iff,
          beq_eq_false_iff_ne, ne_eq]
        refine ⟨?_, ?_, ?_, ?_, ?_, trivial⟩ <;> omega
      have hsafe : codeSafe c = true := by
        rw [codeSafe, h5]
        simp [h128]
      exact Chunks.safeChar hsafe ih'

/-- Counterexample to claim C1 as stated: the code unit U+007F (delete, a
character outside the printable Basic Latin range) is a valid UTF-16 input,
yet `escapeXml` passes it through literally, so the output does not
decompose into printable-Basic-Latin safe characters and entities. -/
theorem escapeXml_claim_cex :
    (∀ c ∈ [127], c < 65536) ∧ ¬ Chunks claimSafe (escapeXml [127]) := by
  constructor
  · decide
  · have he : escapeXml [127] = [127] := by decide
    rw [he]
    intro h
    cases h with
    | safeChar hsafe _ => exact absurd hsafe (by decide)

/-- Witness for `escapeXml_escapes_outside_entities` at the concrete input
`a<&é`. -/
theorem escapeXml_escapes_outside_entities_witness :
    (∀ c ∈ [97, 60, 38, 233], c < 65536) ∧ Chunks codeSafe (escapeXml [97, 60, 38, 233]) :=
  ⟨by decide, escapeXml_escapes_outside_entities [97, 60, 38, 233] (by decide)⟩

example : escapeXml (str "A & B <\"quote\">") = str "A &amp; B &lt;&quot;quote&quot;&gt;" := by
  decide

/-! ## C5: the Ordered View -/

/-- Claim C5: for every input collection, the Ordered View is sorted by
`pubDate` non-increasing, it is a permutation of the input (no record
dropped or duplicated), and records with equal `pubDate` keep their
relative input order (the sublist at any fixed `pubDate` is unchanged). -/
theorem sortedPosts_sorted_stable_perm (posts : List Post) :
    (sortedPosts posts).Sorted byDateDesc ∧
    sortedPosts posts ~ posts ∧
    ∀ d : Int, (sortedPosts posts).filter (fun p => p.pubDate == d)
      = posts.filter (fun p => p.pubDate == d) := by
  refine ⟨List.sorted_insertionSort byDateDesc posts,
    List.perm_insertionSort byDateDesc posts, fun d => ?_⟩
  have h1 : posts.filter (fun p => p.pubDate == d) <+ posts :=
    List.filter_sublist posts
  have hpw : (posts.filter (fun p => p.pubDate == d)).Pairwise byDateDesc := by
    refine List.pairwise_of_forall_mem_list fun a ha b hb => ?_
    have hda : a.pubDate = d := by
      have := List.of_mem_filter ha
      simpa using this
    have hdb : b.pubDate = d := by
      have := List.of_mem_filter hb
      simpa using this
    rw [byDateDesc, hda, hdb]
  have h2 : posts.filter (fun p => p.pubDate == d) <+ sortedPosts posts :=
    List.sublist_insertionSort hpw h1
  have h3 : posts.filter (fun p => p.pubDate == d)
      <+ (sortedPosts posts).filter (fun p => p.pubDate == d) := by
    have h4 := h2.filter (fun p => p.pubDate == d)
    simpa [List.filter_filter] using h4
  have hlen : (posts.filter (fun p => p.pubDate == d)).length
      = ((sortedPosts posts).filter (fun p => p.pubDate == d)).length :=
    ((List.perm_insertionSort byDateDesc posts).filter _).length_eq.symm
  exact (h3.eq_of_length hlen).symm

/-! ## C6: the document-level updated timestamp -/

/-- Claim C6: the feed document consists of the fixed header ending in
`<updated>`, followed by the ISO rendering of the `pubDate` of the first
record of the Ordered View — or of the current time when the store is
empty — followed by `</updated>` and the rest of the document. -/
theorem feed_updated_is_head_pubDate (now : Int) (posts : List Post) :
    ∃ suf, feed now posts = feedHeadXml ++
      toISOString (match sortedPosts posts with | [] => now | p :: _ => p.pubDate)
      ++ str "</updated>" ++ suf := by
  refine ⟨feedAuthorXml ++ List.intercalate (str "\n") ((sortedPosts posts).map entryXml)
    ++ str "\n</feed>", ?_⟩
  rw [feed, lastUpdated, feedAfterUpdated]
  simp [List.append_assoc]

/-! ## C8: totality on the empty store -/

/-- Claim C8: on the empty record store every artifact is produced without
error: the feed is the fixed document with an empty entries section, the
index carries the post count `0` and an empty tag section, and the image
manifest is empty. -/
theorem empty_store_total (now : Int) :
    feed now [] = feedHeadXml ++ toISOString now ++ feedAfterUpdated ++ str "\n</feed>" ∧
    decDigits (sortedPosts ([] : List Post)).length = str "0" ∧
    tagIndex [] = [] ∧
    tagsSection [] = [] ∧
    ogManifest [] = [] ∧
    llmsTxt now [] = indexHead ++ str "0" ++ indexMid1 ++ indexMid2 ++ indexMid3
      ++ jsSplitT0 (toISOString now) ++ indexTail := by
  have hlast : lastUpdated now [] = now := rfl
  have hinter : List.intercalate (str "\n") ((sortedPosts []).map entryXml) = [] := rfl
  have hdec : decDigits (sortedPosts ([] : List Post)).length = str "0" := by decide
  have hblocks : List.intercalate (str "\n") ((sortedPosts []).map postBlock) = [] := rfl
  have htags : tagsSection [] = [] := rfl
  refine ⟨?_, hdec, rfl, htags, rfl, ?_⟩
  · rw [feed, hlast, hinter]
    simp [List.append_assoc]
  · rw [llmsTxt, hdec, hblocks, htags]
    simp [List.append_assoc]

/-! ## C4: determinism of repeated synthesis -/

/-- Claim C4, amended: on a non-empty record set the feed is byte-identical
across runs (its only clock dependence is the fallback timestamp of the
empty store); the image manifest is a function of the record set alone (it
takes no clock input); and two index documents over the same record set are
identical except for the generation-timestamp field. -/
theorem synthesis_deterministic :
    (∀ (t₁ t₂ : Int) (posts : List Post), posts ≠ [] → feed t₁ posts = feed t₂ posts) ∧
    (∀ (t₁ t₂ : Int) (posts : List Post), ∃ pre suf,
      llmsTxt t₁ posts = pre ++ jsSplitT0 (toISOString t₁) ++ suf ∧
      llmsTxt t₂ posts = pre ++ jsSplitT0 (toISOString t₂) ++ suf) := by
  constructor
  · intro t₁ t₂ posts h
    have hs : lastUpdated t₁ posts = lastUpdated t₂ posts := by
      rw [lastUpdated, lastUpdated]
      cases hsp : sortedPosts posts with
      | nil =>
        exfalso
        have hp := List.perm_insertionSort byDateDesc posts
        rw [show List.insertionSort byDateDesc posts = sortedPosts posts from rfl, hsp] at hp
        exact h (List.eq_nil_of_length_eq_zero hp.length_eq.symm)
      | cons p rest => rfl
    rw [feed, feed, hs]
  · intro t₁ t₂ posts
    refine ⟨indexHead ++ decDigits (sortedPosts posts).length ++ indexMid1
      ++ List.intercalate (str "\n") ((sortedPosts posts).map postBlock) ++ indexMid2
      ++ tagsSection posts ++ indexMid3, indexTail, ?_, ?_⟩
    · rw [llmsTxt]
    · rw [llmsTxt]

set_option maxRecDepth 4000 in
/-- Counterexample to claim C4 as stated: on the empty record set the feed
embeds the current time, so two runs a day apart produce different bytes. -/
theorem feed_differs_on_empty_store : feed 0 [] ≠ feed 86400000 [] := by decide

/-- Witness for `synthesis_deterministic` at a concrete non-empty record
set and two distinct clock readings. -/
theorem synthesis_deterministic_witness : feed 0 [demoPost] = feed 99 [demoPost] :=
  synthesis_deterministic.1 0 99 [demoPost] (by decide)

/-! ## C10: day-resolution of the index timestamp -/

/-- Claim C10: the generation timestamp of the index is truncated to the
calendar day (`toISOString().split('T')[0]` is exactly the `YYYY-MM-DD`
date part), so two syntheses whose clock readings fall on the same UTC
calendar day produce byte-identical index documents. -/
theorem llmsTxt_day_resolution (t₁ t₂ : Int) (posts : List Post)
    (h : t₁.fdiv 86400000 = t₂.fdiv 86400000) :
    jsSplitT0 (toISOString t₁) = dateStr (t₁.fdiv 86400000) ∧
    llmsTxt t₁ posts = llmsTxt t₂ posts := by
  refine ⟨jsSplitT0_toISOString t₁, ?_⟩
  rw [llmsTxt, llmsTxt, jsSplitT0_toISOString, jsSplitT0_toISOString, h]

/-- Witness for `llmsTxt_day_resolution`: midnight and 01:00 of 1970-01-01
yield the same index document. -/
theorem llmsTxt_day_resolution_witness :
    (0 : Int).fdiv 86400000 = (3600000 : Int).fdiv 86400000 ∧ llmsTxt 0 [] = llmsTxt 3600000 [] :=
  ⟨by decide, (llmsTxt_day_resolution 0 3600000 [] (by decide)).2⟩

example : toISOString 0 = str "1970-01-01T00:00:00.000Z" := by decide

example : toISOString 1765238400000 = str "2025-12-09T00:00:00.000Z" := by decide

/-! ## C7: the Tag Index -/

theorem jsSetDedup_mem {α : Type} [DecidableEq α] (l : List α) (a : α) :
    a ∈ jsSetDedup l ↔ a ∈ l := by
  induction l with
  | nil => simp [jsSetDedup]
  | cons x xs ih =>
    by_cases hax : a = x
    · subst hax
      simp [jsSetDedup]
    · simp [jsSetDedup, List.mem_filter, hax, ih]

theorem jsSetDedup_nodup {α : Type} [DecidableEq α] (l : List α) : (jsSetDedup l).Nodup := by
  induction l with
  | nil => simp [jsSetDedup]
  | cons x xs ih =>
    rw [jsSetDedup, List.nodup_cons]
    constructor
    · intro hmem
      have := (List.mem_filter.mp hmem).2
      simp at this
    · exact ih.filter _

/-- Claim C7: the Tag Index is sorted lexicographically (the UTF-16
code-unit order of the default JavaScript string sort), contains no
duplicates, contains exactly the tags occurring in some record, and is
empty iff every record has an empty tag list. -/
theorem tagIndex_spec (posts : List Post) :
    (tagIndex posts).Sorted (· ≤ ·) ∧
    (tagIndex posts).Nodup ∧
    (∀ t, t ∈ tagIndex posts ↔ ∃ p ∈ posts, t ∈ p.tags) ∧
    (tagIndex posts = [] ↔ ∀ p ∈ posts, p.tags = []) := by
  have hmem : ∀ t, t ∈ tagIndex posts ↔ ∃ p ∈ posts, t ∈ p.tags := by
    intro t
    rw [tagIndex, List.mem_insertionSort, jsSetDedup_mem, allTags, List.mem_flatMap]
    constructor
    · rintro ⟨p, hp, ht⟩
      exact ⟨p, (List.perm_insertionSort byDateDesc posts).mem_iff.mp hp, ht⟩
    · rintro ⟨p, hp, ht⟩
      exact ⟨p, (List.perm_insertionSort byDateDesc posts).mem_iff.mpr hp, ht⟩
  refine ⟨List.sorted_insertionSort _ _, ?_, hmem, ?_⟩
  · rw [tagIndex]
    exact ((List.perm_insertionSort _ _).nodup_iff).mpr (jsSetDedup_nodup _)
  · rw [List.eq_nil_iff_forall_not_mem]
    constructor
    · intro h p hp
      rw [List.eq_nil_iff_forall_not_mem]
      intro t ht
      exact h t ((hmem t).mpr ⟨p, hp, ht⟩)
    · intro h t ht
      obtain ⟨p, hp, htp⟩ := (hmem t).mp ht
      rw [h p hp] at htp
      exact (List.not_mem_nil t) htp

/-! ## C9: the image manifest -/

theorem upsert_not_mem (k : List Nat) (v : Post) (acc : List (List Nat × Post))
    (h : k ∉ acc.map Prod.fst) : upsert k v acc = acc ++ [(k, v)] := by
  induction acc with
  | nil => rfl
  | cons kv rest ih =>
    obtain ⟨k', v'⟩ := kv
    simp only [List.map_cons, List.mem_cons, not_or] at h
    rw [upsert, if_neg h.1, ih h.2]
    rfl

theorem foldl_upsert_eq (l : List (List Nat × Post)) :
    ∀ acc : List (List Nat × Post), (acc.map Prod.fst ++ l.map Prod.fst).Nodup →
      l.foldl (fun a kv => upsert kv.1 kv.2 a) acc = acc ++ l := by
  induction l with
  | nil =>
    intro acc _
    simp
  | cons kv rest ih =>
    intro acc h
    obtain ⟨k, v⟩ := kv
    rw [List.foldl_cons]
    have hk : k ∉ acc.map Prod.fst := by
      intro hmem
      rcases List.nodup_append.mp h with ⟨-, -, hdisj⟩
      exact hdisj hmem (List.mem_cons_self k _)
    have h2 : ((acc ++ [(k, v)]).map Prod.fst ++ rest.map Prod.fst).Nodup := by
      rw [List.map_append, List.append_assoc]
      simpa using h
    rw [upsert_not_mem k v acc hk, ih (acc ++ [(k, v)]) h2]
    simp

theorem fromEntries_nodup (l : List (List Nat × Post)) (h : (l.map Prod.fst).Nodup) :
    fromEntries l = l := by
  have := foldl_upsert_eq l [] (by simpa using h)
  simpa [fromEntries] using this

theorem ogManifest_map (posts : List Post) (h : (posts.map Post.id).Nodup) :
    ogManifest posts = posts.map (fun p => (getSlug p.id, getImageOptions p)) := by
  have hkeys : ((posts.map fun p => (p.id, p)).map Prod.fst).Nodup := by
    rw [List.map_map]
    exact h
  rw [ogManifest, pages, fromEntries_nodup _ hkeys, List.map_map]
  rfl

theorem filter_id_eq_self (posts : List Post) (h : (posts.map Post.id).Nodup)
    (p : Post) (hp : p ∈ posts) :
    posts.filter (fun q => q.id == p.id) = [p] := by
  induction posts with
  | nil => cases hp
  | cons a rest ih =>
    rw [List.map_cons, List.nodup_cons] at h
    rcases List.mem_cons.mp hp with rfl | hp'
    · have hnil : rest.filter (fun q => q.id == p.id) = [] := by
        rw [List.filter_eq_nil_iff]
        intro q hq hbeq
        have hqp : q.id = p.id := by simpa using hbeq
        have hmem : p.id ∈ List.map Post.id rest := by
          rw [← hqp]
          exact List.mem_map_of_mem Post.id hq
        exact h.1 hmem
      simp [List.filter_cons, hnil]
    · have hne : a.id ≠ p.id := by
        intro he
        apply h.1
        rw [he]
        exact List.mem_map_of_mem Post.id hp'
      simp [List.filter_cons, hne, ih h.2 hp']

theorem filter_slug_map (posts : List Post) (p : Post) :
    (posts.map fun q => (getSlug q.id, getImageOptions q)).filter
      (fun e => e.1 == getSlug p.id)
      = (posts.filter (fun q => q.id == p.id)).map
        (fun q => (getSlug q.id, getImageOptions q)) := by
  induction posts with
  | nil => rfl
  | cons a rest ih =>
    by_cases ha : a.id = p.id
    · simp [List.filter_cons, ha, ih]
    · have h1 : (getSlug a.id == getSlug p.id) = false := by
        simp only [beq_eq_false_iff_ne, ne_eq, getSlug]
        intro he
        exact ha (List.append_cancel_right he)
      have h2 : (a.id == p.id) = false := by
        simpa using ha
      simp [List.filter_cons, h1, h2, ih]

/-- Claim C9: with unique record ids (an invariant owned by the loader),
the manifest has exactly one render request per record; the request of a
record has target filename `<id>.png` (a pure function of `id`), and its
options carry that record's title and description with the fixed theme
constants. -/
theorem ogManifest_one_request_per_record (posts : List Post)
    (h : (posts.map Post.id).Nodup) :
    (ogManifest posts).length = posts.length ∧
    ∀ p ∈ posts,
      getSlug p.id = p.id ++ str ".png" ∧
      (ogManifest posts).filter (fun e => e.1 == getSlug p.id)
        = [(p.id ++ str ".png", getImageOptions p)] := by
  have hm := ogManifest_map posts h
  constructor
  · rw [hm, List.length_map]
  · intro p hp
    refine ⟨rfl, ?_⟩
    rw [hm, filter_slug_map posts p, filter_id_eq_self posts h p hp]
    rfl

/-- Witness for `ogManifest_one_request_per_record` at a concrete store of
two records with distinct ids. -/
theorem ogManifest_one_request_per_record_witness :
    (ogManifest [demoPost, emptyTagsPost]).filter
      (fun e => e.1 == getSlug demoPost.id)
      = [(demoPost.id ++ str ".png", getImageOptions demoPost)] :=
  ((ogManifest_one_request_per_record [demoPost, emptyTagsPost] (by decide)).2
    demoPost (List.mem_cons_self demoPost _)).2

/-! ## C2: the canonical per-record URL -/

/-- Claim C2 fails on the code: for the repository's own article id
`std-move-deep-dive`, the feed builds the canonical URL from `post.id`
while the index interpolates the non-existent `post.slug` (the Astro 5
glob loader provides no `slug` property), producing the literal URL
`https://0xghost.dev/blog/undefined/`.  The two URL builders disagree on
every record. -/
theorem canonical_url_divergence :
    feedEntryUrl demoPost = str "https://0xghost.dev/blog/std-move-deep-dive/" ∧
    indexPostUrl demoPost = str "https://0xghost.dev/blog/undefined/" ∧
    feedEntryUrl demoPost ≠ indexPostUrl demoPost := by
  refine ⟨by decide, by decide, by decide⟩

/-! ## C3: fallbacks for degenerate input -/

/-- Counterexample to claim C3 as stated: a record whose `tags` list is
empty yields an empty Tags token, not the literal "none", and a record
whose description is the empty string yields an empty Description token,
not the fallback sentence (`??` fires only on null/undefined, and the
schema guarantees both fields are present). -/
theorem fallback_tokens_cex :
    emptyTagsPost.tags = [] ∧ tagsToken emptyTagsPost ≠ str "none" ∧
    emptyTagsPost.description = [] ∧ descToken emptyTagsPost ≠ str "No description provided." := by
  refine ⟨rfl, by decide, rfl, by decide⟩

/-- Claim C3, amended: degenerate-but-valid input is still never an error
(both tokens are total functions of the record), but the fallbacks fire
only when the field is null or undefined — which the schema rules out.  The
Tags token is always the comma-join of `tags` (so the empty list yields an
empty token) and the Description token is always the description verbatim
(so the empty string yields an empty token). -/
theorem fallback_tokens (p : Post) :
    tagsToken p = List.intercalate (str ", ") p.tags ∧
    descToken p = p.description ∧
    (p.tags = [] → tagsToken p = []) ∧
    (p.description = [] → descToken p = []) := by
  refine ⟨rfl, rfl, ?_, ?_⟩
  · intro h
    rw [tagsToken, h]
    rfl
  · intro h
    rw [descToken, h]
    rfl

/-- Witness for `fallback_tokens` at the degenerate record. -/
theorem fallback_tokens_witness :
    tagsToken emptyTagsPost = [] ∧ descToken emptyTagsPost = [] :=
  ⟨(fallback_tokens emptyTagsPost).2.2.1 rfl, (fallback_tokens emptyTagsPost).2.2.2 rfl⟩
